import Mathlib

/-!
# Verification of STLUtil (`stlutil.hpp`)

Shallow embedding of the two components of the repository:

* the binary STL parser `STLReader::STLReader` (modelled byte-exactly, with
  the stream's `failbit`/`eofbit` semantics made explicit), and
* the plane slicer `slice_polygons_at` and its helpers
  `segment_plane_intersection` / `point_on_line`.

Floating-point scalars of the slicer are modelled by the type `F`:
exact rationals extended with IEEE-754 special values (NaN and signed
infinities), with IEEE rules for division by zero, arithmetic on special
values, and comparisons (every comparison involving NaN is false).
Rounding is idealised (finite arithmetic is exact); the claims we settle
about the slicer concern the special-value and interval logic, which this
model captures faithfully.

The parser stores the four bytes of each float verbatim as a 32-bit
little-endian word (`Nat`), so "bit-exact" round-trip claims are literal.
-/

namespace STLUtil

/-- Model of a C++ `float` value: NaN, a signed infinity (`neg = true`
for `-∞`), or a finite value represented exactly by a rational. -/
inductive F where
  | nan : F
  | inf (neg : Bool) : F
  | fin (q : ℚ) : F
deriving DecidableEq

namespace F

/-- IEEE negation. -/
def neg : F → F
  | nan => nan
  | inf s => inf (!s)
  | fin q => fin (-q)

/-- IEEE addition (exact on finite values): `∞ + (-∞) = NaN`, infinities
absorb finite values, NaN propagates. -/
def add : F → F → F
  | nan, _ => nan
  | _, nan => nan
  | inf s, inf t => if s = t then inf s else nan
  | inf s, fin _ => inf s
  | fin _, inf t => inf t
  | fin a, fin b => fin (a + b)

/-- IEEE subtraction, defined as `x + (-y)` as in hardware. -/
def sub (x y : F) : F := add x (neg y)

/-- IEEE multiplication (exact on finite values): `∞ × 0 = NaN`,
signs combine, NaN propagates. -/
def mul : F → F → F
  | nan, _ => nan
  | _, nan => nan
  | inf s, inf t => inf (s != t)
  | inf s, fin q => if q = 0 then nan else inf (s != decide (q < 0))
  | fin q, inf t => if q = 0 then nan else inf (t != decide (q < 0))
  | fin a, fin b => fin (a * b)

/-- IEEE division (exact on finite values): `finite/0` is a signed
infinity, `0/0` and `∞/∞` are NaN, `finite/∞ = 0`, NaN propagates. -/
def div : F → F → F
  | nan, _ => nan
  | _, nan => nan
  | inf _, inf _ => nan
  | inf s, fin q => inf (s != decide (q < 0))
  | fin _, inf _ => fin 0
  | fin a, fin b =>
      if b = 0 then (if a = 0 then nan else inf (decide (a < 0)))
      else fin (a / b)

/-- IEEE strict comparison: false whenever either side is NaN. -/
def lt : F → F → Bool
  | nan, _ => false
  | _, nan => false
  | inf s, inf t => s && !t
  | inf s, fin _ => s
  | fin _, inf t => !t
  | fin a, fin b => decide (a < b)

/-- IEEE non-strict comparison: false whenever either side is NaN. -/
def le : F → F → Bool
  | nan, _ => false
  | _, nan => false
  | inf s, inf t => s = t || (s && !t)
  | inf s, fin _ => s
  | fin _, inf t => !t
  | fin a, fin b => decide (a ≤ b)

instance : Neg F := ⟨neg⟩
instance : Add F := ⟨add⟩
instance : Sub F := ⟨sub⟩
instance : Mul F := ⟨mul⟩
instance : Div F := ⟨div⟩

end F

/-- `STLVector`: a point in 3-space (source line 18). -/
structure STLVector where
  x : F
  y : F
  z : F
deriving DecidableEq

/-- `STLSegment`: a line segment with start `p` and end `q`
(source line 27). -/
structure STLSegment where
  p : STLVector
  q : STLVector
deriving DecidableEq

/-- `STLPolygon`: a triangle with a normal vector and vertices
`a`, `b`, `c` (source line 36). -/
structure STLPolygon where
  normal : STLVector
  a : STLVector
  b : STLVector
  c : STLVector
deriving DecidableEq

/-- `internal::segment_plane_intersection` (source lines 162-170): the
parameter of the intersection of the segment's line with the plane
`ax + by + cz + d = 0`. -/
def segment_plane_intersection (segment : STLSegment)
    (a b c d : F) : F :=
  (-(a * segment.p.x + b * segment.p.y + c * segment.p.z + d))
    / (a * (segment.q.x - segment.p.x) + b * (segment.q.y - segment.p.y)
        + c * (segment.q.z - segment.p.z))

/-- `internal::point_on_line` (source lines 179-190): the point dividing
the segment in ratio `1 - t : t`. -/
def point_on_line (segment : STLSegment) (t : F) : STLVector :=
  { x := (F.fin 1 - t) * segment.p.x + t * segment.q.x
    y := (F.fin 1 - t) * segment.p.y + t * segment.q.y
    z := (F.fin 1 - t) * segment.p.z + t * segment.q.z }

/-- The body of the loop of `slice_polygons_at` (source lines 208-226)
for a single polygon: compute `s`, `t`, `u` for the edges `p→q`, `q→r`,
`r→p`, then emit at most one segment from the first of the three edge
pairs whose two parameters both lie in `[0, 1)`.  The `normal` field is
ignored by the destructuring, exactly as the source's `ignore` binding. -/
def sliceTriangle (a b c d : F) (poly : STLPolygon) : Option STLSegment :=
  let p := poly.a
  let q := poly.b
  let r := poly.c
  let s := segment_plane_intersection ⟨p, q⟩ a b c d
  let t := segment_plane_intersection ⟨q, r⟩ a b c d
  let u := segment_plane_intersection ⟨r, p⟩ a b c d
  if F.le (F.fin 0) s && F.lt s (F.fin 1)
      && (F.le (F.fin 0) t && F.lt t (F.fin 1)) then
    some ⟨point_on_line ⟨p, q⟩ s, point_on_line ⟨q, r⟩ t⟩
  else if F.le (F.fin 0) t && F.lt t (F.fin 1)
      && (F.le (F.fin 0) u && F.lt u (F.fin 1)) then
    some ⟨point_on_line ⟨q, r⟩ t, point_on_line ⟨r, p⟩ u⟩
  else if F.le (F.fin 0) u && F.lt u (F.fin 1)
      && (F.le (F.fin 0) s && F.lt s (F.fin 1)) then
    some ⟨point_on_line ⟨r, p⟩ u, point_on_line ⟨p, q⟩ s⟩
  else
    none

/-- `slice_polygons_at` (source lines 203-228): iterate over the
polygons in order, pushing the segment produced for each polygon (if
any) onto the back of the result vector. -/
def slice_polygons_at (polygons : List STLPolygon)
    (a b c d : F) : List STLSegment :=
  polygons.foldl
    (fun res poly =>
      match sliceTriangle a b c d poly with
      | some seg => res ++ [seg]
      | none => res)
    []

/-- `slice_polygons_at_x` (source lines 237-242). -/
def slice_polygons_at_x (polygons : List STLPolygon) (x : F) :
    List STLSegment :=
  slice_polygons_at polygons (F.fin 1) (F.fin 0) (F.fin 0) (-x)

/-- `slice_polygons_at_y` (source lines 251-256). -/
def slice_polygons_at_y (polygons : List STLPolygon) (y : F) :
    List STLSegment :=
  slice_polygons_at polygons (F.fin 0) (F.fin 1) (F.fin 0) (-y)

/-- `slice_polygons_at_z` (source lines 265-270). -/
def slice_polygons_at_z (polygons : List STLPolygon) (z : F) :
    List STLSegment :=
  slice_polygons_at polygons (F.fin 0) (F.fin 0) (F.fin 1) (-z)

/-! ## The binary STL parser

`STLReader::STLReader` (source lines 60-106) reads from an `std::ifstream`
with exceptions enabled on `failbit | badbit` (line 66).  We model the
stream by the list of bytes not yet consumed together with its `eofbit`:

* `read(buf, n)` is an unformatted input function: if `eofbit` is already
  set its sentry fails (setting `failbit`, which throws); if fewer than
  `n` bytes remain it sets `failbit` (throws); otherwise it consumes `n`
  bytes.
* `ignore(n)` likewise throws if `eofbit` is already set; otherwise it
  consumes up to `n` bytes, setting `eofbit` (but *not* `failbit`, hence
  not throwing) when the stream ends before `n` bytes were skipped.

A thrown exception propagates out of the constructor (nothing catches
it), so no object is observable; we model this with `Except.error`.
Bytes are `Nat` values (below 256 in any real source); a 4-byte group is
kept as its little-endian 32-bit word, so float values are represented
bit-exactly by their encoding. -/

/-- The single exception the constructor can throw:
`std::ios_base::failure` raised by a read past the end of the source. -/
inductive STLError where
  | truncatedData : STLError
deriving DecidableEq

/-- An input stream: the bytes not yet consumed, and the `eofbit`. -/
structure Stream where
  rest : List Nat
  eofbit : Bool
deriving DecidableEq

/-- `stream.read(buf, n)`: fails (throws) if `eofbit` is set or fewer
than `n` bytes remain, else consumes and returns `n` bytes. -/
def readBytes (n : Nat) (s : Stream) :
    Except STLError (List Nat × Stream) :=
  if s.eofbit then .error .truncatedData
  else if n ≤ s.rest.length then
    .ok (s.rest.take n, ⟨s.rest.drop n, false⟩)
  else .error .truncatedData

/-- `stream.ignore(n)`: fails (throws) if `eofbit` is already set;
otherwise skips up to `n` bytes, setting `eofbit` instead of failing
when the stream ends early. -/
def ignoreBytes (n : Nat) (s : Stream) : Except STLError Stream :=
  if s.eofbit then .error .truncatedData
  else if n ≤ s.rest.length then .ok ⟨s.rest.drop n, false⟩
  else .ok ⟨[], true⟩

/-- The unsigned 32-bit little-endian value of a byte list (the result
of `read` into a `uint32_t` or `float` on a little-endian machine). -/
def leDecode (l : List Nat) : Nat :=
  l.foldr (fun b acc => b + 256 * acc) 0

/-- Read 4 bytes and assemble their little-endian word, as each
`stlfile.read(..., 4)` into a 4-byte object does. -/
def readWord (s : Stream) : Except STLError (Nat × Stream) :=
  match readBytes 4 s with
  | .error e => .error e
  | .ok (bs, s1) => .ok (leDecode bs, s1)

/-- A parsed float triple; each component is the 32-bit little-endian
word holding the bits of the IEEE-754 float32. -/
structure STLVector32 where
  x : Nat
  y : Nat
  z : Nat
deriving DecidableEq

/-- A parsed 50-byte record: normal and three vertices (the 2 attribute
bytes are read and discarded, so they do not appear). -/
structure STLPolygon32 where
  normal : STLVector32
  a : STLVector32
  b : STLVector32
  c : STLVector32
deriving DecidableEq

/-- Read one vector: three consecutive 4-byte float reads (x, y, z), as
in source lines 77-79 and the analogous vertex blocks. -/
def readVector (s : Stream) : Except STLError (STLVector32 × Stream) :=
  match readWord s with
  | .error e => .error e
  | .ok (x, s1) =>
    match readWord s1 with
    | .error e => .error e
    | .ok (y, s2) =>
      match readWord s2 with
      | .error e => .error e
      | .ok (z, s3) => .ok (⟨x, y, z⟩, s3)

/-- The loop of source lines 73-103: for each of `n` records read the
normal, the three vertices, then `ignore(2)` for the attribute bytes. -/
def readPolygons : Nat → Stream →
    Except STLError (List STLPolygon32 × Stream)
  | 0, s => .ok ([], s)
  | n + 1, s =>
    match readVector s with
    | .error e => .error e
    | .ok (normal, s1) =>
      match readVector s1 with
      | .error e => .error e
      | .ok (a, s2) =>
        match readVector s2 with
        | .error e => .error e
        | .ok (b, s3) =>
          match readVector s3 with
          | .error e => .error e
          | .ok (c, s4) =>
            match ignoreBytes 2 s4 with
            | .error e => .error e
            | .ok s5 =>
              match readPolygons n s5 with
              | .error e => .error e
              | .ok (restPolys, s6) => .ok (⟨normal, a, b, c⟩ :: restPolys, s6)

/-- The observable state of an `STLReader` object: `header_`,
`polygons_` and `valid` (source lines 48-51). -/
structure STLReaderState where
  header : List Nat
  polygons : List STLPolygon32
  valid : Bool
deriving DecidableEq

/-- `STLReader::operator bool` (source lines 111-113). -/
def STLReaderState.toBool (m : STLReaderState) : Bool := m.valid

/-- The outcome of running the constructor: the `std::cerr` diagnostics
it printed, and either the constructed object or the exception that
escaped it. -/
instance {ε α : Type} [DecidableEq ε] [DecidableEq α] :
    DecidableEq (Except ε α) := fun x y =>
  match x, y with
  | .ok a, .ok b =>
      if h : a = b then .isTrue (by rw [h]) else .isFalse (by simp [h])
  | .error e, .error f =>
      if h : e = f then .isTrue (by rw [h]) else .isFalse (by simp [h])
  | .ok _, .error _ => .isFalse (by simp)
  | .error _, .ok _ => .isFalse (by simp)

structure STLReadResult where
  log : List String
  result : Except STLError STLReaderState
deriving DecidableEq

/-- `STLReader::STLReader(path)` (source lines 60-106).  `contents` is
what opening `path` yields: `none` when the file cannot be opened (the
constructor prints a diagnostic and returns with `valid = false`),
otherwise the file's bytes.  On success `valid` is set to `true` at the
end; an exception thrown by any read propagates, so no state survives. -/
def STLReader (path : String) (contents : Option (List Nat)) :
    STLReadResult :=
  match contents with
  | none =>
      { log := ["STLReader::STLReader() Error: Cannot open file `"
                  ++ path ++ "`."]
        result := .ok ⟨[], [], false⟩ }
  | some bytes =>
      { log := []
        result :=
          match readBytes 80 ⟨bytes, false⟩ with
          | .error e => .error e
          | .ok (header, s1) =>
            match readWord s1 with
            | .error e => .error e
            | .ok (size, s2) =>
              match readPolygons size s2 with
              | .error e => .error e
              | .ok (polys, _) => .ok ⟨header, polys, true⟩ }

/-! ### Pure descriptions of the layout, for the success theorems -/

/-- The little-endian bytes of a 32-bit word. -/
def leEncode (w : Nat) : List Nat :=
  [w % 256, w / 256 % 256, w / 65536 % 256, w / 16777216 % 256]

/-- The float triple held in the first 12 bytes of a byte list. -/
def decodeVector (l : List Nat) : STLVector32 :=
  ⟨leDecode (l.take 4), leDecode ((l.drop 4).take 4),
    leDecode ((l.drop 8).take 4)⟩

/-- The record held in the first 48 payload bytes of a byte list:
normal at offset 0, vertices at offsets 12, 24, 36. -/
def decodePolygon (l : List Nat) : STLPolygon32 :=
  ⟨decodeVector l, decodeVector (l.drop 12), decodeVector (l.drop 24),
    decodeVector (l.drop 36)⟩

/-- The `n` records held in consecutive 50-byte slices of a byte list. -/
def decodeRecords : Nat → List Nat → List STLPolygon32
  | 0, _ => []
  | n + 1, l => decodePolygon l :: decodeRecords n (l.drop 50)

/-- The 12 bytes encoding a float triple. -/
def encodeVector (v : STLVector32) : List Nat :=
  leEncode v.x ++ leEncode v.y ++ leEncode v.z

/-- The 50 bytes encoding one record (attribute bytes zero). -/
def encodePolygon (p : STLPolygon32) : List Nat :=
  encodeVector p.normal ++ encodeVector p.a ++ encodeVector p.b
    ++ encodeVector p.c ++ [0, 0]

/-- Serialize a synthetic mesh: 80 header bytes, the little-endian
count, then the 50-byte records. -/
def serializeMesh (header : List Nat) (polys : List STLPolygon32) :
    List Nat :=
  header ++ leEncode polys.length ++ (polys.map encodePolygon).flatten

/-- A mesh is serializable when its header is exactly 80 bytes and
every stored word fits in 32 bits (as any parsed mesh satisfies). -/
def STLVector32.wf (v : STLVector32) : Prop :=
  v.x < 2 ^ 32 ∧ v.y < 2 ^ 32 ∧ v.z < 2 ^ 32

def STLPolygon32.wf (p : STLPolygon32) : Prop :=
  p.normal.wf ∧ p.a.wf ∧ p.b.wf ∧ p.c.wf

/-! ## Rational (finite-float) views used by the geometric statements -/

/-- A point with finite coordinates, as exact rationals. -/
structure QVec where
  x : ℚ
  y : ℚ
  z : ℚ
deriving DecidableEq

/-- The finite float vector a `QVec` stands for. -/
def QVec.toVec (v : QVec) : STLVector := ⟨F.fin v.x, F.fin v.y, F.fin v.z⟩

/-- The value of the plane expression `ax + by + cz + d` at a point,
computed exactly. -/
def planeEval (a b c d : ℚ) (v : QVec) : ℚ :=
  a * v.x + b * v.y + c * v.z + d

/-- The polygon with the given (finite) normal and vertices. -/
def QPoly (n p q r : QVec) : STLPolygon :=
  ⟨n.toVec, p.toVec, q.toVec, r.toVec⟩

/-- The crossing condition on the exact plane values of an edge's two
endpoints: the start lies exactly on the plane and the end does not, or
the endpoints lie strictly on opposite sides. -/
def EdgeCross (fv fw : ℚ) : Prop :=
  (fv = 0 ∧ fw ≠ 0) ∨ (0 < fv ∧ fw < 0) ∨ (fv < 0 ∧ 0 < fw)

/-- Both values strictly on the same side of the plane. -/
def SameSideStrict (f g : ℚ) : Prop := (0 < f ∧ 0 < g) ∨ (f < 0 ∧ g < 0)

/-- The values strictly on opposite sides of the plane. -/
def OppositeSidesStrict (f g : ℚ) : Prop :=
  (0 < f ∧ g < 0) ∨ (f < 0 ∧ 0 < g)

/-! ## The slicing algorithm as the spec states it

An independent rendering of spec §4.2 steps 1-3, compared with the
source's loop by the refinement theorem for C3: the parametric value of
each edge by the spec's formula, the half-open `[0, 1)` crossing test,
the three edge pairs in the spec's fixed priority order, the first pair
with both edges crossing mapped to the segment of the two interpolated
crossing points. -/

/-- Spec §4.2 step 1: for an edge from `(x1,y1,z1)` to `(x2,y2,z2)`,
`t = -(a·x1+b·y1+c·z1+d) / (a·(x2-x1)+b·(y2-y1)+c·(z2-z1))`. -/
def edgeParamSpec (a b c d : F) (v w : STLVector) : F :=
  (-(a * v.x + b * v.y + c * v.z + d))
    / (a * (w.x - v.x) + b * (w.y - v.y) + c * (w.z - v.z))

/-- Spec §4.2 step 2: an edge crosses iff its `t` lies in `[0, 1)`. -/
def crossesSpec (a b c d : F) (v w : STLVector) : Bool :=
  F.le (F.fin 0) (edgeParamSpec a b c d v w)
    && F.lt (edgeParamSpec a b c d v w) (F.fin 1)

/-- Spec §4.2 step 3: the crossing point `(1−t)·start + t·end` of an
edge. -/
def crossingPointSpec (a b c d : F) (v w : STLVector) : STLVector :=
  let t := edgeParamSpec a b c d v w
  ⟨(F.fin 1 - t) * v.x + t * w.x,
    (F.fin 1 - t) * v.y + t * w.y,
    (F.fin 1 - t) * v.z + t * w.z⟩

/-- Spec §4.2 step 3: test the edge pairs `(p→q, q→r)`, `(q→r, r→p)`,
`(r→p, p→q)` in this fixed order; the first pair with both edges
crossing yields the segment of its two crossing points; no such pair,
no segment. -/
def sliceTriangleSpec (a b c d : F) (poly : STLPolygon) :
    Option STLSegment :=
  let pairs : List ((STLVector × STLVector) × (STLVector × STLVector)) :=
    [((poly.a, poly.b), (poly.b, poly.c)),
      ((poly.b, poly.c), (poly.c, poly.a)),
      ((poly.c, poly.a), (poly.a, poly.b))]
  (pairs.find? fun ee =>
      crossesSpec a b c d ee.1.1 ee.1.2
        && crossesSpec a b c d ee.2.1 ee.2.2).map
    fun ee =>
      ⟨crossingPointSpec a b c d ee.1.1 ee.1.2,
        crossingPointSpec a b c d ee.2.1 ee.2.2⟩


/-! ## Computation lemmas for `F` on finite values -/

namespace F

theorem add_fin (a b : ℚ) : (fin a + fin b : F) = fin (a + b) := rfl

theorem neg_fin (a : ℚ) : (-(fin a) : F) = fin (-a) := rfl

theorem mul_fin (a b : ℚ) : (fin a * fin b : F) = fin (a * b) := rfl

theorem sub_fin (a b : ℚ) : (fin a - fin b : F) = fin (a - b) := by
  show add (fin a) (neg (fin b)) = _
  simp [add, neg, sub_eq_add_neg]

theorem div_fin (a b : ℚ) : (fin a / fin b : F) =
    if b = 0 then (if a = 0 then nan else inf (decide (a < 0)))
    else fin (a / b) := rfl

theorem le_fin (a b : ℚ) : le (fin a) (fin b) = decide (a ≤ b) := rfl

theorem lt_fin (a b : ℚ) : lt (fin a) (fin b) = decide (a < b) := rfl

/-- No value is `≤`-below NaN, no value is `<`-below NaN, and neither
comparison holds with NaN on the left: NaN never satisfies `[0, 1)`. -/
theorem le_nan (x : F) : le x nan = false := by cases x <;> rfl

theorem nan_le (x : F) : le nan x = false := by cases x <;> rfl

/-- An infinity never lies in `[0, 1)`: `+∞` fails `< 1` and `-∞` fails
`0 ≤`. -/
theorem not_interval_inf (s : Bool) :
    (le (fin 0) (inf s) && lt (inf s) (fin 1)) = false := by
  cases s <;> rfl

end F

/-- The intersection parameter of the edge from `v` to `w`, computed on
finite inputs: with `N = -(planeEval v)` and `D = planeEval w - planeEval v`
it is `N / D` under IEEE division (NaN for `0/0`, a signed infinity for
`N/0` with `N ≠ 0`). -/
theorem segment_plane_intersection_fin (a b c d : ℚ) (v w : QVec) :
    segment_plane_intersection ⟨v.toVec, w.toVec⟩
        (F.fin a) (F.fin b) (F.fin c) (F.fin d) =
      (if planeEval a b c d w - planeEval a b c d v = 0 then
        (if -planeEval a b c d v = 0 then F.nan
          else F.inf (decide (-planeEval a b c d v < 0)))
      else F.fin (-planeEval a b c d v
          / (planeEval a b c d w - planeEval a b c d v))) := by
  have h1 : a * (w.x - v.x) + b * (w.y - v.y) + c * (w.z - v.z)
      = planeEval a b c d w - planeEval a b c d v := by
    simp only [planeEval]; ring
  simp only [segment_plane_intersection, QVec.toVec, F.mul_fin, F.sub_fin,
    F.add_fin, F.neg_fin, F.div_fin, h1, planeEval]

/-- Exact arithmetic: `-fv / (fw - fv)` lies in `[0, 1)` iff `fv = 0`,
or `fv` and `fw` have strictly opposite signs. -/
theorem unit_interval_div_iff (fv fw : ℚ) (hD : fw - fv ≠ 0) :
    (0 ≤ -fv / (fw - fv) ∧ -fv / (fw - fv) < 1) ↔
      fv = 0 ∨ (0 < fv ∧ fw < 0) ∨ (fv < 0 ∧ 0 < fw) := by
  rcases lt_trichotomy (fw - fv) 0 with hneg | h0 | hpos
  · rw [le_div_iff_of_neg hneg, div_lt_iff_of_neg hneg]
    constructor
    · rintro ⟨h1, h2⟩
      exact if hfv : fv = 0 then Or.inl hfv
        else Or.inr (Or.inl ⟨lt_of_le_of_ne (by linarith) (Ne.symm hfv),
          by linarith⟩)
    · rintro (h | ⟨h1, h2⟩ | ⟨h1, h2⟩) <;> constructor <;> linarith
  · exact absurd h0 hD
  · rw [le_div_iff₀ hpos, div_lt_one hpos]
    constructor
    · rintro ⟨h1, h2⟩
      exact if hfv : fv = 0 then Or.inl hfv
        else Or.inr (Or.inr ⟨lt_of_le_of_ne (by linarith) hfv, by linarith⟩)
    · rintro (h | ⟨h1, h2⟩ | ⟨h1, h2⟩) <;> constructor <;> linarith

/-- The `[0, 1)` crossing test on the edge from `v` to `w`, on finite
inputs, holds exactly under `EdgeCross` of the endpoint plane values. -/
theorem crossing_iff (a b c d : ℚ) (v w : QVec) :
    (F.le (F.fin 0) (segment_plane_intersection ⟨v.toVec, w.toVec⟩
          (F.fin a) (F.fin b) (F.fin c) (F.fin d))
        && F.lt (segment_plane_intersection ⟨v.toVec, w.toVec⟩
          (F.fin a) (F.fin b) (F.fin c) (F.fin d)) (F.fin 1)) = true ↔
      EdgeCross (planeEval a b c d v) (planeEval a b c d w) := by
  unfold EdgeCross
  rw [segment_plane_intersection_fin]
  set fv := planeEval a b c d v with hfv
  set fw := planeEval a b c d w with hfw
  by_cases hD : fw - fv = 0
  · have hvw : fw = fv := by linarith
    rw [if_pos hD]
    by_cases hN : -fv = 0
    · have hv0 : fv = 0 := by linarith
      rw [if_pos hN]
      simp only [F.le_nan, Bool.false_and, Bool.false_eq_true, false_iff]
      rintro (⟨h1, h2⟩ | ⟨h1, h2⟩ | ⟨h1, h2⟩)
      · exact h2 (by rw [hvw, hv0])
      · linarith
      · linarith
    · rw [if_neg hN]
      simp only [F.not_interval_inf, Bool.false_eq_true, false_iff]
      rintro (⟨h1, h2⟩ | ⟨h1, h2⟩ | ⟨h1, h2⟩)
      · exact hN (by rw [h1]; ring)
      · linarith
      · linarith
  · rw [if_neg hD]
    simp only [F.le_fin, F.lt_fin, Bool.and_eq_true, decide_eq_true_eq]
    rw [unit_interval_div_iff fv fw hD]
    constructor
    · rintro (h | h | h)
      · exact Or.inl ⟨h, fun hw => hD (by rw [hw, h]; ring)⟩
      · exact Or.inr (Or.inl h)
      · exact Or.inr (Or.inr h)
    · rintro (⟨h, _⟩ | h | h)
      · exact Or.inl h
      · exact Or.inr (Or.inl h)
      · exact Or.inr (Or.inr h)

/-- Restatement of `crossing_iff` for a false crossing test. -/
theorem crossing_false (a b c d : ℚ) (v w : QVec)
    (h : ¬ EdgeCross (planeEval a b c d v) (planeEval a b c d w)) :
    (F.le (F.fin 0) (segment_plane_intersection ⟨v.toVec, w.toVec⟩
          (F.fin a) (F.fin b) (F.fin c) (F.fin d))
        && F.lt (segment_plane_intersection ⟨v.toVec, w.toVec⟩
          (F.fin a) (F.fin b) (F.fin c) (F.fin d)) (F.fin 1)) = false := by
  rw [← Bool.not_eq_true, crossing_iff]
  exact h

/-- When the edge's start lies exactly on the plane and its end does
not, the intersection parameter is exactly `0`. -/
theorem segment_plane_intersection_start_on_plane (a b c d : ℚ)
    (v w : QVec) (hv : planeEval a b c d v = 0)
    (hw : planeEval a b c d w ≠ 0) :
    segment_plane_intersection ⟨v.toVec, w.toVec⟩
        (F.fin a) (F.fin b) (F.fin c) (F.fin d) = F.fin 0 := by
  rw [segment_plane_intersection_fin]
  rw [if_neg (by rw [hv, sub_zero]; exact hw)]
  rw [hv]
  norm_num

/-- Interpolating at parameter `0` on an edge with finite endpoints
returns the start point exactly (`(1-0)·x1 + 0·x2 = x1`, exact even in
floating point). -/
theorem point_on_line_zero (v w : QVec) :
    point_on_line ⟨v.toVec, w.toVec⟩ (F.fin 0) = v.toVec := by
  simp only [point_on_line, QVec.toVec, F.sub_fin, F.mul_fin, F.add_fin]
  norm_num

/-- `slice_polygons_at` is the in-order concatenation of the
per-triangle results. -/
theorem slice_eq_filterMap (polygons : List STLPolygon) (a b c d : F) :
    slice_polygons_at polygons a b c d
      = polygons.filterMap (sliceTriangle a b c d) := by
  suffices h : ∀ acc : List STLSegment,
      polygons.foldl
        (fun res poly =>
          match sliceTriangle a b c d poly with
          | some seg => res ++ [seg]
          | none => res) acc
      = acc ++ polygons.filterMap (sliceTriangle a b c d) by
    simpa [slice_polygons_at] using h []
  induction polygons with
  | nil => intro acc; simp
  | cons hd tl ih =>
    intro acc
    cases h : sliceTriangle a b c d hd with
    | none => simp [List.foldl_cons, h, ih]
    | some seg => simp [List.foldl_cons, h, ih]

/-- `sliceTriangle` never reads the `normal` field. -/
theorem sliceTriangle_normal_free (a b c d : F) (n n' p q r : STLVector) :
    sliceTriangle a b c d ⟨n, p, q, r⟩ = sliceTriangle a b c d ⟨n', p, q, r⟩ :=
  rfl

/-- Per-triangle refinement: the source's loop body agrees with the
spec's first-crossing-pair description on every input. -/
theorem sliceTriangle_eq_spec (a b c d : F) (poly : STLPolygon) :
    sliceTriangle a b c d poly = sliceTriangleSpec a b c d poly := by
  have hpq : segment_plane_intersection ⟨poly.a, poly.b⟩ a b c d
      = edgeParamSpec a b c d poly.a poly.b := rfl
  have hqr : segment_plane_intersection ⟨poly.b, poly.c⟩ a b c d
      = edgeParamSpec a b c d poly.b poly.c := rfl
  have hrp : segment_plane_intersection ⟨poly.c, poly.a⟩ a b c d
      = edgeParamSpec a b c d poly.c poly.a := rfl
  have hpol : ∀ v w : STLVector, point_on_line ⟨v, w⟩
      (edgeParamSpec a b c d v w) = crossingPointSpec a b c d v w :=
    fun v w => rfl
  have hc : ∀ v w : STLVector,
      (F.le (F.fin 0) (edgeParamSpec a b c d v w)
        && F.lt (edgeParamSpec a b c d v w) (F.fin 1))
      = crossesSpec a b c d v w := fun _ _ => rfl
  simp only [sliceTriangle, sliceTriangleSpec, hpq, hqr, hrp, hpol, hc]
  cases h1 : crossesSpec a b c d poly.a poly.b
    <;> cases h2 : crossesSpec a b c d poly.b poly.c
    <;> cases h3 : crossesSpec a b c d poly.c poly.a
    <;> simp [h1, h2, h3, List.find?]

/-! ## Sign-case helpers for the boundary-convention claim -/

theorem not_edgeCross_of_same (f g : ℚ) (h : SameSideStrict f g) :
    ¬ EdgeCross f g := by
  unfold EdgeCross
  rcases h with ⟨h1, h2⟩ | ⟨h1, h2⟩ <;>
    rintro (⟨ha, hb⟩ | ⟨ha, hb⟩ | ⟨ha, hb⟩) <;> linarith [ha, hb]

theorem not_edgeCross_to_plane (f : ℚ) (hf : f ≠ 0) : ¬ EdgeCross f 0 := by
  unfold EdgeCross
  rintro (⟨ha, _⟩ | ⟨_, hb⟩ | ⟨_, hb⟩)
  · exact hf ha
  · linarith
  · linarith

theorem edgeCross_of_opposite (f g : ℚ) (h : OppositeSidesStrict f g) :
    EdgeCross f g := by
  unfold EdgeCross
  unfold OppositeSidesStrict at h
  rcases h with h | h
  · exact Or.inr (Or.inl h)
  · exact Or.inr (Or.inr h)

theorem oppSides_left_ne (f g : ℚ)
    (h : OppositeSidesStrict f g) : f ≠ 0 := by
  rcases h with ⟨h1, _⟩ | ⟨h1, _⟩
  · exact ne_of_gt h1
  · exact ne_of_lt h1

theorem sameSide_left_ne (f g : ℚ) (h : SameSideStrict f g) :
    f ≠ 0 := by
  rcases h with ⟨h1, _⟩ | ⟨h1, _⟩
  · exact ne_of_gt h1
  · exact ne_of_lt h1

theorem sameSide_right_ne (f g : ℚ) (h : SameSideStrict f g) :
    g ≠ 0 := by
  rcases h with ⟨_, h2⟩ | ⟨_, h2⟩
  · exact ne_of_gt h2
  · exact ne_of_lt h2

theorem oppSides_right_ne (f g : ℚ)
    (h : OppositeSidesStrict f g) : g ≠ 0 := by
  rcases h with ⟨_, h2⟩ | ⟨_, h2⟩
  · exact ne_of_lt h2
  · exact ne_of_gt h2

theorem oppSides_swap (f g : ℚ) (h : OppositeSidesStrict f g) :
    OppositeSidesStrict g f := by
  unfold OppositeSidesStrict at h ⊢
  rcases h with ⟨h1, h2⟩ | ⟨h1, h2⟩
  · exact Or.inr ⟨h2, h1⟩
  · exact Or.inl ⟨h2, h1⟩

theorem sameSide_swap (f g : ℚ) (h : SameSideStrict f g) :
    SameSideStrict g f := by
  unfold SameSideStrict at h ⊢
  rcases h with ⟨h1, h2⟩ | ⟨h1, h2⟩
  · exact Or.inl ⟨h2, h1⟩
  · exact Or.inr ⟨h2, h1⟩

theorem edgeCross_from_plane (f g : ℚ) (hf : f = 0) (hg : g ≠ 0) :
    EdgeCross f g := by
  unfold EdgeCross
  exact Or.inl ⟨hf, hg⟩

/-! ## Claim theorems about the slicer -/

/-- **C2**: for a triangle with exactly one vertex `v` on the plane
(its plane expression evaluates to `0`) and the other two vertices
strictly off it: if the other two lie strictly on the same side, the
slicer emits zero segments for the triangle; if they lie strictly on
opposite sides, it emits exactly one segment whose first endpoint
equals `v` bit-exactly. Stated for `v` in each of the three vertex
positions. -/
theorem one_vertex_on_plane_boundary_convention
    (a b c d : ℚ) (n p q r : QVec) :
    (planeEval a b c d p = 0 →
      (SameSideStrict (planeEval a b c d q) (planeEval a b c d r) →
        slice_polygons_at [QPoly n p q r]
          (F.fin a) (F.fin b) (F.fin c) (F.fin d) = [])
      ∧ (OppositeSidesStrict (planeEval a b c d q) (planeEval a b c d r) →
        ∃ seg, slice_polygons_at [QPoly n p q r]
            (F.fin a) (F.fin b) (F.fin c) (F.fin d) = [seg]
          ∧ seg.p = p.toVec))
    ∧ (planeEval a b c d q = 0 →
      (SameSideStrict (planeEval a b c d p) (planeEval a b c d r) →
        slice_polygons_at [QPoly n p q r]
          (F.fin a) (F.fin b) (F.fin c) (F.fin d) = [])
      ∧ (OppositeSidesStrict (planeEval a b c d p) (planeEval a b c d r) →
        ∃ seg, slice_polygons_at [QPoly n p q r]
            (F.fin a) (F.fin b) (F.fin c) (F.fin d) = [seg]
          ∧ seg.p = q.toVec))
    ∧ (planeEval a b c d r = 0 →
      (SameSideStrict (planeEval a b c d p) (planeEval a b c d q) →
        slice_polygons_at [QPoly n p q r]
          (F.fin a) (F.fin b) (F.fin c) (F.fin d) = [])
      ∧ (OppositeSidesStrict (planeEval a b c d p) (planeEval a b c d q) →
        ∃ seg, slice_polygons_at [QPoly n p q r]
            (F.fin a) (F.fin b) (F.fin c) (F.fin d) = [seg]
          ∧ seg.p = r.toVec)) := by
  refine ⟨fun hp => ⟨fun hss => ?_, fun hopp => ?_⟩,
          fun hq => ⟨fun hss => ?_, fun hopp => ?_⟩,
          fun hr => ⟨fun hss => ?_, fun hopp => ?_⟩⟩
  · rw [slice_eq_filterMap]
    simp [sliceTriangle, QPoly,
      (crossing_iff a b c d p q).mpr
        (edgeCross_from_plane _ _ hp (sameSide_left_ne _ _ hss)),
      crossing_false a b c d q r (not_edgeCross_of_same _ _ hss),
      crossing_false a b c d r p (by
        rw [hp]
        exact not_edgeCross_to_plane _ (sameSide_right_ne _ _ hss))]
  · have hq0 := oppSides_left_ne _ _ hopp
    have hs := segment_plane_intersection_start_on_plane a b c d p q hp hq0
    rw [slice_eq_filterMap]
    simp [sliceTriangle, QPoly,
      (crossing_iff a b c d p q).mpr (edgeCross_from_plane _ _ hp hq0),
      (crossing_iff a b c d q r).mpr (edgeCross_of_opposite _ _ hopp)]
    rw [hs]
    exact point_on_line_zero p q
  · rw [slice_eq_filterMap]
    simp [sliceTriangle, QPoly,
      crossing_false a b c d p q (by
        rw [hq]
        exact not_edgeCross_to_plane _ (sameSide_left_ne _ _ hss)),
      (crossing_iff a b c d q r).mpr
        (edgeCross_from_plane _ _ hq (sameSide_right_ne _ _ hss)),
      crossing_false a b c d r p
        (not_edgeCross_of_same _ _ (sameSide_swap _ _ hss))]
  · have hr0 := oppSides_right_ne _ _ hopp
    have hs := segment_plane_intersection_start_on_plane a b c d q r hq hr0
    rw [slice_eq_filterMap]
    simp [sliceTriangle, QPoly,
      crossing_false a b c d p q (by
        rw [hq]
        exact not_edgeCross_to_plane _ (oppSides_left_ne _ _ hopp)),
      (crossing_iff a b c d q r).mpr (edgeCross_from_plane _ _ hq hr0),
      (crossing_iff a b c d r p).mpr
        (edgeCross_of_opposite _ _ (oppSides_swap _ _ hopp))]
    rw [hs]
    exact point_on_line_zero q r
  · rw [slice_eq_filterMap]
    simp [sliceTriangle, QPoly,
      crossing_false a b c d p q (not_edgeCross_of_same _ _ hss),
      crossing_false a b c d q r (by
        rw [hr]
        exact not_edgeCross_to_plane _ (sameSide_right_ne _ _ hss)),
      (crossing_iff a b c d r p).mpr
        (edgeCross_from_plane _ _ hr (sameSide_left_ne _ _ hss))]
  · have hp0 := oppSides_left_ne _ _ hopp
    have hs := segment_plane_intersection_start_on_plane a b c d r p hr hp0
    rw [slice_eq_filterMap]
    simp [sliceTriangle, QPoly,
      (crossing_iff a b c d p q).mpr (edgeCross_of_opposite _ _ hopp),
      crossing_false a b c d q r (by
        rw [hr]
        exact not_edgeCross_to_plane _ (oppSides_right_ne _ _ hopp)),
      (crossing_iff a b c d r p).mpr (edgeCross_from_plane _ _ hr hp0)]
    rw [hs]
    exact point_on_line_zero r p

/-- Witness for C2: the triangle with vertex `(5,6,0)` on the plane
`z = 0` and the other two vertices at `z = 2` and `z = -3` (strictly
opposite sides) yields exactly one segment starting at `(5,6,0)`. -/
theorem one_vertex_on_plane_boundary_convention_witness :
    ∃ seg, slice_polygons_at
        [QPoly ⟨0, 0, 1⟩ ⟨5, 6, 0⟩ ⟨1, 0, 2⟩ ⟨0, 1, -3⟩]
        (F.fin 0) (F.fin 0) (F.fin 1) (F.fin 0) = [seg]
      ∧ seg.p = (⟨5, 6, 0⟩ : QVec).toVec :=
  ((one_vertex_on_plane_boundary_convention 0 0 1 0 ⟨0, 0, 1⟩ ⟨5, 6, 0⟩
      ⟨1, 0, 2⟩ ⟨0, 1, -3⟩).1 (by norm_num [planeEval])).2
    (by norm_num [OppositeSidesStrict, planeEval])

/-- **C3**: `slice_polygons_at` computes per edge the parametric value
by the spec's formula, crosses on the half-open interval `[0, 1)`,
tests the edge pairs `(p→q, q→r)`, `(q→r, r→p)`, `(r→p, p→q)` in this
fixed order, emits for the first pair with both edges crossing the
segment of the two interpolated crossing points `(1−t)·start + t·end`,
at most one segment per triangle, and nothing for a triangle with no
such pair — all captured by `sliceTriangleSpec`, of which the loop is a
per-triangle refinement. -/
theorem slice_polygons_at_matches_spec_algorithm
    (polygons : List STLPolygon) (a b c d : F) :
    slice_polygons_at polygons a b c d
      = polygons.filterMap (sliceTriangleSpec a b c d) := by
  rw [slice_eq_filterMap]
  rw [funext (sliceTriangle_eq_spec a b c d)]

/-- **C5**: a triangle lying entirely in the slicing plane (every
vertex's plane expression evaluates to `0`, so each edge's parameter is
`0/0 = NaN`) produces zero segments: the NaN comparisons against
`[0, 1)` are all false. -/
theorem coplanar_triangle_yields_no_segments (a b c d : ℚ)
    (n p q r : QVec) (hp : planeEval a b c d p = 0)
    (hq : planeEval a b c d q = 0) (hr : planeEval a b c d r = 0) :
    slice_polygons_at [QPoly n p q r]
      (F.fin a) (F.fin b) (F.fin c) (F.fin d) = [] := by
  have h1 := crossing_false a b c d p q (by rw [hp, hq]; simp [EdgeCross])
  have h2 := crossing_false a b c d q r (by rw [hq, hr]; simp [EdgeCross])
  have h3 := crossing_false a b c d r p (by rw [hr, hp]; simp [EdgeCross])
  rw [slice_eq_filterMap]
  simp [sliceTriangle, QPoly, h1, h2, h3]

/-- Witness for C5: the triangle with all three vertices at `z = 0`
sliced at the plane `z = 0` yields zero segments. -/
theorem coplanar_triangle_yields_no_segments_witness :
    slice_polygons_at [QPoly ⟨0, 0, 1⟩ ⟨0, 0, 0⟩ ⟨1, 0, 0⟩ ⟨0, 1, 0⟩]
      (F.fin 0) (F.fin 0) (F.fin 1) (F.fin 0) = [] :=
  coplanar_triangle_yields_no_segments 0 0 1 0 ⟨0, 0, 1⟩ ⟨0, 0, 0⟩
    ⟨1, 0, 0⟩ ⟨0, 1, 0⟩ (by norm_num [planeEval]) (by norm_num [planeEval])
    (by norm_num [planeEval])

/-- **C7**: each axis-aligned convenience entry point equals the
general form at coefficients `(1,0,0,−x)`, `(0,1,0,−y)`, `(0,0,1,−z)`
respectively, for every polygon list and every scalar. -/
theorem axis_aligned_wrappers_reduce_to_general_form :
    ∀ (polygons : List STLPolygon) (x y z : F),
      slice_polygons_at_x polygons x
          = slice_polygons_at polygons (F.fin 1) (F.fin 0) (F.fin 0) (-x)
        ∧ slice_polygons_at_y polygons y
          = slice_polygons_at polygons (F.fin 0) (F.fin 1) (F.fin 0) (-y)
        ∧ slice_polygons_at_z polygons z
          = slice_polygons_at polygons (F.fin 0) (F.fin 0) (F.fin 1) (-z) :=
  fun _ _ _ _ => ⟨rfl, rfl, rfl⟩

/-- **C8**: `slice_polygons_at` is total — for every polygon list and
every combination of plane coefficients, non-finite ones included, it
returns a (possibly empty) segment list, never longer than the input. -/
theorem slice_polygons_at_total (polygons : List STLPolygon)
    (a b c d : F) :
    ∃ segments : List STLSegment,
      slice_polygons_at polygons a b c d = segments
        ∧ segments.length ≤ polygons.length := by
  refine ⟨_, rfl, ?_⟩
  rw [slice_eq_filterMap]
  exact List.length_filterMap_le _ _

/-- **C9**: the output of `slice_polygons_at` does not depend on the
`normal` field of any polygon: two equal-length polygon lists agreeing
on the vertices `a`, `b`, `c` slice identically under every plane. -/
theorem slice_polygons_at_ignores_normals
    (polys₁ polys₂ : List STLPolygon) (a b c d : F)
    (h : List.Forall₂
      (fun P Q => P.a = Q.a ∧ P.b = Q.b ∧ P.c = Q.c) polys₁ polys₂) :
    slice_polygons_at polys₁ a b c d
      = slice_polygons_at polys₂ a b c d := by
  rw [slice_eq_filterMap, slice_eq_filterMap]
  induction h with
  | nil => rfl
  | @cons P Q l₁ l₂ h₁ _ ih =>
    obtain ⟨Pn, Pa, Pb, Pc⟩ := P
    obtain ⟨Qn, Qa, Qb, Qc⟩ := Q
    obtain ⟨ha, hb, hc⟩ := h₁
    dsimp at ha hb hc
    subst ha; subst hb; subst hc
    simp only [List.filterMap_cons, ih]
    rw [sliceTriangle_normal_free a b c d Pn Qn Pa Pb Pc]

/-- Witness for C9: two singleton lists differing only in the normal
(one of them NaN) slice identically. -/
theorem slice_polygons_at_ignores_normals_witness :
    slice_polygons_at
        [⟨⟨F.nan, F.nan, F.nan⟩, ⟨F.fin 0, F.fin 0, F.fin 0⟩,
          ⟨F.fin 1, F.fin 0, F.fin 2⟩, ⟨F.fin 0, F.fin 1, F.fin 3⟩⟩]
        (F.fin 0) (F.fin 0) (F.fin 1) (F.fin 0)
      = slice_polygons_at
        [⟨⟨F.fin 9, F.fin 8, F.fin 7⟩, ⟨F.fin 0, F.fin 0, F.fin 0⟩,
          ⟨F.fin 1, F.fin 0, F.fin 2⟩, ⟨F.fin 0, F.fin 1, F.fin 3⟩⟩]
        (F.fin 0) (F.fin 0) (F.fin 1) (F.fin 0) :=
  slice_polygons_at_ignores_normals _ _ _ _ _ _
    (List.Forall₂.cons ⟨rfl, rfl, rfl⟩ List.Forall₂.nil)

/-- **C10**: `slice_polygons_at` is deterministic and order-preserving:
it is a function of its input, the returned list is the in-order
concatenation of the per-triangle results, and its length never exceeds
the number of input polygons. -/
theorem slice_polygons_at_deterministic_in_order
    (polygons : List STLPolygon) (a b c d : F) :
    slice_polygons_at polygons a b c d
        = polygons.filterMap (sliceTriangle a b c d)
      ∧ (slice_polygons_at polygons a b c d).length ≤ polygons.length := by
  refine ⟨slice_eq_filterMap polygons a b c d, ?_⟩
  rw [slice_eq_filterMap]
  exact List.length_filterMap_le _ _

/-! ## Stream-level lemmas for the parser -/

theorem readBytes_false (n : Nat) (l : List Nat) :
    readBytes n ⟨l, false⟩ =
      if n ≤ l.length then Except.ok (l.take n, ⟨l.drop n, false⟩)
      else Except.error .truncatedData := by
  simp [readBytes]

theorem readBytes_eof (n : Nat) (l : List Nat) :
    readBytes n ⟨l, true⟩ = Except.error .truncatedData := by
  simp [readBytes]

theorem readWord_ok (l : List Nat) (h : 4 ≤ l.length) :
    readWord ⟨l, false⟩ =
      Except.ok (leDecode (l.take 4), ⟨l.drop 4, false⟩) := by
  rw [readWord, readBytes_false, if_pos h]

theorem readWord_err (l : List Nat) (h : l.length < 4) :
    readWord ⟨l, false⟩ = Except.error .truncatedData := by
  rw [readWord, readBytes_false, if_neg (by omega)]

theorem readWord_eof (l : List Nat) :
    readWord ⟨l, true⟩ = Except.error .truncatedData := by
  rw [readWord, readBytes_eof]

theorem readVector_ok (l : List Nat) (h : 12 ≤ l.length) :
    readVector ⟨l, false⟩ =
      Except.ok (decodeVector l, ⟨l.drop 12, false⟩) := by
  simp only [readVector, readWord_ok l (by omega),
    readWord_ok (l.drop 4) (by simp; omega),
    readWord_ok ((l.drop 4).drop 4) (by simp; omega)]
  simp [decodeVector, List.drop_drop]

theorem readVector_err (l : List Nat) (h : l.length < 12) :
    readVector ⟨l, false⟩ = Except.error .truncatedData := by
  by_cases c1 : l.length < 4
  · simp only [readVector, readWord_err l c1]
  · by_cases c2 : l.length < 8
    · simp only [readVector, readWord_ok l (by omega),
        readWord_err (l.drop 4) (by simp; omega)]
    · simp only [readVector, readWord_ok l (by omega),
        readWord_ok (l.drop 4) (by simp; omega),
        readWord_err ((l.drop 4).drop 4) (by simp; omega)]

theorem readVector_eof (l : List Nat) :
    readVector ⟨l, true⟩ = Except.error .truncatedData := by
  simp only [readVector, readWord_eof]

theorem ignoreBytes_false (n : Nat) (l : List Nat) :
    ignoreBytes n ⟨l, false⟩ =
      if n ≤ l.length then Except.ok ⟨l.drop n, false⟩
      else Except.ok ⟨[], true⟩ := by
  simp [ignoreBytes]

theorem readPolygons_eof (n : Nat) (hn : 1 ≤ n) (l : List Nat) :
    readPolygons n ⟨l, true⟩ = Except.error .truncatedData := by
  cases n with
  | zero => omega
  | succ m => simp only [readPolygons, readVector_eof]

theorem readPolygons_ok (n : Nat) (l : List Nat) (h : 50 * n ≤ l.length) :
    readPolygons n ⟨l, false⟩ =
      Except.ok (decodeRecords n l, ⟨l.drop (50 * n), false⟩) := by
  induction n generalizing l with
  | zero => simp [readPolygons, decodeRecords]
  | succ m ih =>
    have e24 : (l.drop 12).drop 12 = l.drop 24 := by rw [List.drop_drop]
    have e36 : (l.drop 24).drop 12 = l.drop 36 := by rw [List.drop_drop]
    have e48 : (l.drop 36).drop 12 = l.drop 48 := by rw [List.drop_drop]
    have e50 : (l.drop 48).drop 2 = l.drop 50 := by rw [List.drop_drop]
    have h1 := readVector_ok l (by omega)
    have h2 : readVector ⟨l.drop 12, false⟩
        = Except.ok (decodeVector (l.drop 12), ⟨l.drop 24, false⟩) := by
      rw [readVector_ok (l.drop 12) (by simp; omega), e24]
    have h3 : readVector ⟨l.drop 24, false⟩
        = Except.ok (decodeVector (l.drop 24), ⟨l.drop 36, false⟩) := by
      rw [readVector_ok (l.drop 24) (by simp; omega), e36]
    have h4 : readVector ⟨l.drop 36, false⟩
        = Except.ok (decodeVector (l.drop 36), ⟨l.drop 48, false⟩) := by
      rw [readVector_ok (l.drop 36) (by simp; omega), e48]
    have h5 : ignoreBytes 2 ⟨l.drop 48, false⟩
        = Except.ok ⟨l.drop 50, false⟩ := by
      rw [ignoreBytes_false, if_pos (by simp; omega), e50]
    have h6 : readPolygons m ⟨l.drop 50, false⟩
        = Except.ok (decodeRecords m (l.drop 50),
            ⟨(l.drop 50).drop (50 * m), false⟩) :=
      ih _ (by simp; omega)
    simp only [readPolygons, h1, h2, h3, h4, h5, h6]
    simp [decodeRecords, decodePolygon, List.drop_drop, Nat.mul_succ,
      Nat.add_comm]

theorem readPolygons_err (n : Nat) (l : List Nat)
    (h : l.length < 50 * n - 2) :
    readPolygons n ⟨l, false⟩ = Except.error .truncatedData := by
  induction n generalizing l with
  | zero => omega
  | succ m ih =>
    by_cases c1 : l.length < 12
    · simp only [readPolygons, readVector_err l c1]
    · have e24 : (l.drop 12).drop 12 = l.drop 24 := by rw [List.drop_drop]
      have h1 := readVector_ok l (by omega)
      by_cases c2 : l.length < 24
      · have h2 : readVector ⟨l.drop 12, false⟩
            = Except.error .truncatedData :=
          readVector_err _ (by simp; omega)
        simp only [readPolygons, h1, h2]
      · have e36 : (l.drop 24).drop 12 = l.drop 36 := by
          rw [List.drop_drop]
        have h2 : readVector ⟨l.drop 12, false⟩
            = Except.ok (decodeVector (l.drop 12), ⟨l.drop 24, false⟩) := by
          rw [readVector_ok (l.drop 12) (by simp; omega), e24]
        by_cases c3 : l.length < 36
        · have h3 : readVector ⟨l.drop 24, false⟩
              = Except.error .truncatedData :=
            readVector_err _ (by simp; omega)
          simp only [readPolygons, h1, h2, h3]
        · have e48 : (l.drop 36).drop 12 = l.drop 48 := by
            rw [List.drop_drop]
          have h3 : readVector ⟨l.drop 24, false⟩
              = Except.ok (decodeVector (l.drop 24), ⟨l.drop 36, false⟩) := by
            rw [readVector_ok (l.drop 24) (by simp; omega), e36]
          by_cases c4 : l.length < 48
          · have h4 : readVector ⟨l.drop 36, false⟩
                = Except.error .truncatedData :=
              readVector_err _ (by simp; omega)
            simp only [readPolygons, h1, h2, h3, h4]
          · have h4 : readVector ⟨l.drop 36, false⟩
                = Except.ok (decodeVector (l.drop 36),
                    ⟨l.drop 48, false⟩) := by
              rw [readVector_ok (l.drop 36) (by simp; omega), e48]
            have hm : 1 ≤ m := by omega
            by_cases c5 : 2 ≤ l.length - 48
            · have e50 : (l.drop 48).drop 2 = l.drop 50 := by
                rw [List.drop_drop]
              have h5 : ignoreBytes 2 ⟨l.drop 48, false⟩
                  = Except.ok ⟨l.drop 50, false⟩ := by
                rw [ignoreBytes_false, if_pos (by simp; omega), e50]
              have h6 : readPolygons m ⟨l.drop 50, false⟩
                  = Except.error .truncatedData :=
                ih _ (by simp; omega)
              simp only [readPolygons, h1, h2, h3, h4, h5, h6]
            · have h5 : ignoreBytes 2 ⟨l.drop 48, false⟩
                  = Except.ok ⟨[], true⟩ := by
                rw [ignoreBytes_false, if_neg (by simp; omega)]
              have h6 := readPolygons_eof m hm []
              simp only [readPolygons, h1, h2, h3, h4, h5, h6]

/-- The constructor on a readable source: success outcome, under the
spec's well-formedness bound (at least `84 + 50·N` bytes where `N` is
the little-endian count at offset 80). -/
theorem STLReader_some_ok (path : String) (bytes : List Nat)
    (h84 : 84 ≤ bytes.length)
    (hN : 84 + 50 * leDecode ((bytes.drop 80).take 4) ≤ bytes.length) :
    STLReader path (some bytes) =
      ⟨[], Except.ok ⟨bytes.take 80,
        decodeRecords (leDecode ((bytes.drop 80).take 4)) (bytes.drop 84),
        true⟩⟩ := by
  have hb : readBytes 80 ⟨bytes, false⟩
      = Except.ok (bytes.take 80, ⟨bytes.drop 80, false⟩) := by
    rw [readBytes_false, if_pos (by omega)]
  have hw : readWord ⟨bytes.drop 80, false⟩
      = Except.ok (leDecode ((bytes.drop 80).take 4),
          ⟨(bytes.drop 80).drop 4, false⟩) :=
    readWord_ok _ (by simp; omega)
  have hdrop : (bytes.drop 80).drop 4 = bytes.drop 84 := by
    rw [List.drop_drop]
  have hp : readPolygons (leDecode ((bytes.drop 80).take 4))
        ⟨bytes.drop 84, false⟩
      = Except.ok (decodeRecords (leDecode ((bytes.drop 80).take 4))
          (bytes.drop 84),
        ⟨(bytes.drop 84).drop (50 * leDecode ((bytes.drop 80).take 4)),
          false⟩) :=
    readPolygons_ok _ _ (by simp; omega)
  simp only [STLReader, hb, hw, hdrop, hp]

/-- The constructor on a readable source: failure outcome, whenever the
source is shorter than `84 + (50·N − 2)` bytes (the header, the count,
or the records up to and including the last float are truncated). -/
theorem STLReader_some_err (path : String) (bytes : List Nat)
    (h : bytes.length
      < 84 + (50 * leDecode ((bytes.drop 80).take 4) - 2)) :
    STLReader path (some bytes) = ⟨[], Except.error .truncatedData⟩ := by
  by_cases h80 : bytes.length < 80
  · have hb : readBytes 80 ⟨bytes, false⟩ = Except.error .truncatedData := by
      rw [readBytes_false, if_neg (by omega)]
    simp only [STLReader, hb]
  · have hb : readBytes 80 ⟨bytes, false⟩
        = Except.ok (bytes.take 80, ⟨bytes.drop 80, false⟩) := by
      rw [readBytes_false, if_pos (by omega)]
    by_cases h84 : bytes.length < 84
    · have hw : readWord ⟨bytes.drop 80, false⟩
          = Except.error .truncatedData :=
        readWord_err _ (by simp; omega)
      simp only [STLReader, hb, hw]
    · have hw : readWord ⟨bytes.drop 80, false⟩
          = Except.ok (leDecode ((bytes.drop 80).take 4),
              ⟨(bytes.drop 80).drop 4, false⟩) :=
        readWord_ok _ (by simp; omega)
      have hdrop : (bytes.drop 80).drop 4 = bytes.drop 84 := by
        rw [List.drop_drop]
      have hp : readPolygons (leDecode ((bytes.drop 80).take 4))
            ⟨bytes.drop 84, false⟩
          = Except.error .truncatedData :=
        readPolygons_err _ _ (by simp; omega)
      simp only [STLReader, hb, hw, hdrop, hp]

/-! ## Round-trip lemmas for the serializer -/

theorem leDecode_leEncode (w : Nat) (h : w < 2 ^ 32) :
    leDecode (leEncode w) = w := by
  simp [leDecode, leEncode]
  omega

theorem leEncode_length (w : Nat) : (leEncode w).length = 4 := by
  simp [leEncode]

theorem encodeVector_length (v : STLVector32) :
    (encodeVector v).length = 12 := by
  simp [encodeVector, leEncode]

theorem encodePolygon_length (P : STLPolygon32) :
    (encodePolygon P).length = 50 := by
  simp [encodePolygon, encodeVector, leEncode]

theorem decodePolygon_encode (P : STLPolygon32) (hwf : P.wf)
    (rest : List Nat) : decodePolygon (encodePolygon P ++ rest) = P := by
  obtain ⟨n, a, b, c⟩ := P
  obtain ⟨x1, y1, z1⟩ := n
  obtain ⟨x2, y2, z2⟩ := a
  obtain ⟨x3, y3, z3⟩ := b
  obtain ⟨x4, y4, z4⟩ := c
  unfold STLPolygon32.wf STLVector32.wf at hwf
  dsimp only at hwf
  obtain ⟨⟨h1, h2, h3⟩, ⟨h4, h5, h6⟩, ⟨h7, h8, h9⟩, ⟨h10, h11, h12⟩⟩ := hwf
  simp [decodePolygon, decodeVector, encodePolygon, encodeVector,
    leEncode, leDecode, STLPolygon32.mk.injEq, STLVector32.mk.injEq]
  omega

theorem decodeRecords_encode (ps : List STLPolygon32)
    (hwf : ∀ P ∈ ps, P.wf) :
    decodeRecords ps.length ((ps.map encodePolygon).flatten) = ps := by
  induction ps with
  | nil => simp [decodeRecords]
  | cons P tl ih =>
    have hP : P.wf := hwf P (by simp)
    have htl : ∀ Q ∈ tl, Q.wf := fun Q hQ => hwf Q (by simp [hQ])
    have d50 : (encodePolygon P ++ (tl.map encodePolygon).flatten).drop 50
        = (tl.map encodePolygon).flatten :=
      List.drop_left' (encodePolygon_length P)
    simp only [List.length_cons, List.map_cons, List.flatten_cons,
      decodeRecords, decodePolygon_encode P hP, d50, ih htl]

theorem flatten_encode_length (ps : List STLPolygon32) :
    ((ps.map encodePolygon).flatten).length = 50 * ps.length := by
  induction ps with
  | nil => simp
  | cons P tl ih =>
    simp [ih, encodePolygon_length]
    ring

theorem serializeMesh_length (header : List Nat)
    (ps : List STLPolygon32) (h80 : header.length = 80) :
    (serializeMesh header ps).length = 84 + 50 * ps.length := by
  simp only [serializeMesh, List.length_append, flatten_encode_length,
    h80, leEncode_length]

theorem serializeMesh_take (header : List Nat) (ps : List STLPolygon32)
    (h80 : header.length = 80) :
    (serializeMesh header ps).take 80 = header := by
  rw [serializeMesh, List.append_assoc]
  exact List.take_left' h80

theorem serializeMesh_drop80 (header : List Nat) (ps : List STLPolygon32)
    (h80 : header.length = 80) :
    (serializeMesh header ps).drop 80
      = leEncode ps.length ++ (ps.map encodePolygon).flatten := by
  rw [serializeMesh, List.append_assoc]
  exact List.drop_left' h80

theorem serializeMesh_count (header : List Nat) (ps : List STLPolygon32)
    (h80 : header.length = 80) :
    ((serializeMesh header ps).drop 80).take 4 = leEncode ps.length := by
  rw [serializeMesh_drop80 header ps h80]
  exact List.take_left' (leEncode_length _)

theorem serializeMesh_drop84 (header : List Nat) (ps : List STLPolygon32)
    (h80 : header.length = 80) :
    (serializeMesh header ps).drop 84
      = (ps.map encodePolygon).flatten := by
  have : (serializeMesh header ps).drop 84
      = ((serializeMesh header ps).drop 80).drop 4 := by
    rw [List.drop_drop]
  rw [this, serializeMesh_drop80 header ps h80]
  exact List.drop_left' (leEncode_length _)

/-! ## Claim theorems about the parser -/

/-- **C6**: a byte source that cannot be opened at all makes the
constructor report the file-open error (the `Cannot open file`
diagnostic) and return an explicitly invalid `Mesh`: empty header,
empty triangle collection, `valid = false`, observable through
`operator bool`. -/
theorem unopenable_source_yields_invalid_mesh (path : String) :
    STLReader path none
        = ⟨["STLReader::STLReader() Error: Cannot open file `"
              ++ path ++ "`."],
            Except.ok ⟨[], [], false⟩⟩
      ∧ STLReaderState.toBool ⟨[], [], false⟩ = false :=
  ⟨rfl, rfl⟩

/-- **C4**: a well-formed source (80 header bytes, little-endian count
`N` at offset 80, at least `50·N` further bytes) parses successfully:
`valid = true`, the header is the first 80 bytes verbatim, and the
triangles are the `N` records decoded in file order (each 50-byte
record as 12 little-endian 32-bit words with the 2 attribute bytes
discarded, per `decodeRecords`).  Consequently serializing a synthetic
mesh and parsing it back reproduces header and triangles bit-exactly. -/
theorem well_formed_source_parses_and_round_trips :
    (∀ (path : String) (bytes : List Nat),
        84 ≤ bytes.length →
        84 + 50 * leDecode ((bytes.drop 80).take 4) ≤ bytes.length →
        STLReader path (some bytes)
          = ⟨[], Except.ok ⟨bytes.take 80,
              decodeRecords (leDecode ((bytes.drop 80).take 4))
                (bytes.drop 84), true⟩⟩)
    ∧ (∀ (path : String) (header : List Nat) (polys : List STLPolygon32),
        header.length = 80 → polys.length < 2 ^ 32 →
        (∀ P ∈ polys, P.wf) →
        STLReader path (some (serializeMesh header polys))
          = ⟨[], Except.ok ⟨header, polys, true⟩⟩) := by
  constructor
  · exact fun path bytes h84 hN => STLReader_some_ok path bytes h84 hN
  · intro path header polys h80 hcnt hwf
    have hlen := serializeMesh_length header polys h80
    have hN : leDecode (((serializeMesh header polys).drop 80).take 4)
        = polys.length := by
      rw [serializeMesh_count header polys h80]
      exact leDecode_leEncode _ hcnt
    rw [STLReader_some_ok path _ (by omega) (by rw [hN]; omega)]
    rw [serializeMesh_take header polys h80, hN,
      serializeMesh_drop84 header polys h80,
      decodeRecords_encode polys hwf]

/-- Witness for C4: a synthetic mesh with header `replicate 80 65` and
one triangle with distinct word values round-trips bit-exactly. -/
theorem well_formed_source_parses_and_round_trips_witness :
    STLReader "synthetic.stl"
        (some (serializeMesh (List.replicate 80 65)
          [⟨⟨1, 2, 3⟩, ⟨4, 5, 6⟩, ⟨7, 8, 9⟩, ⟨4294967295, 0, 2147483648⟩⟩]))
      = ⟨[], Except.ok ⟨List.replicate 80 65,
          [⟨⟨1, 2, 3⟩, ⟨4, 5, 6⟩, ⟨7, 8, 9⟩, ⟨4294967295, 0, 2147483648⟩⟩],
          true⟩⟩ :=
  well_formed_source_parses_and_round_trips.2 "synthetic.stl"
    (List.replicate 80 65)
    [⟨⟨1, 2, 3⟩, ⟨4, 5, 6⟩, ⟨7, 8, 9⟩, ⟨4294967295, 0, 2147483648⟩⟩]
    (by simp) (by norm_num)
    (by
      intro P hP
      simp only [List.mem_singleton] at hP
      subst hP
      refine ⟨⟨?_, ?_, ?_⟩, ⟨?_, ?_, ?_⟩, ⟨?_, ?_, ?_⟩, ⟨?_, ?_, ?_⟩⟩
        <;> norm_num)

/-- **C1 (amended)**: a source truncated anywhere up to and including
the last float of the last record — fewer than `84 + (50·N − 2)` total
bytes for declared count `N` (so in particular a short header or a
short count field) — makes the constructor throw `TruncatedDataError`
(the `failbit` exception): no `Mesh` is constructed and no partially
decoded triangle is observable.  (Per the counterexample, a source
missing only the final record's one or two attribute bytes instead
parses successfully, because the final `ignore(2)` only sets `eofbit`.) -/
theorem truncated_source_fails_with_truncated_data_error
    (path : String) (bytes : List Nat)
    (h : bytes.length
      < 84 + (50 * leDecode ((bytes.drop 80).take 4) - 2)) :
    STLReader path (some bytes) = ⟨[], Except.error .truncatedData⟩
      ∧ ∀ m : STLReaderState,
          (STLReader path (some bytes)).result ≠ Except.ok m := by
  have he := STLReader_some_err path bytes h
  refine ⟨he, ?_⟩
  intro m hm
  rw [he] at hm
  simp at hm

set_option maxRecDepth 8000 in
/-- Witness for C1 (amended): a source with a declared count of 1 but
only 10 record bytes fails with `TruncatedDataError`. -/
theorem truncated_source_fails_with_truncated_data_error_witness :
    STLReader "short.stl"
        (some (List.replicate 80 0 ++ [1, 0, 0, 0] ++ List.replicate 10 0))
      = ⟨[], Except.error .truncatedData⟩
      ∧ ∀ m : STLReaderState,
          (STLReader "short.stl"
            (some (List.replicate 80 0 ++ [1, 0, 0, 0]
              ++ List.replicate 10 0))).result ≠ Except.ok m :=
  truncated_source_fails_with_truncated_data_error "short.stl"
    (List.replicate 80 0 ++ [1, 0, 0, 0] ++ List.replicate 10 0)
    (by decide)

set_option maxRecDepth 8000 in
/-- Counterexample to **C1** as stated: a source with the 80-byte
header, a declared count of 1, and only 48 record bytes (fewer than
`50×N = 50`) does *not* fail with `TruncatedDataError` — it parses
successfully with `valid = true` and the one fully decoded triangle,
because only the trailing `ignore(2)` of the final record hits the end
of the stream, which sets `eofbit` without throwing. -/
theorem truncated_attribute_bytes_parse_succeeds :
    (List.replicate 80 0 ++ [1, 0, 0, 0]
        ++ List.replicate 48 0).length < 84 + 50 * 1
      ∧ STLReader "cut.stl"
          (some (List.replicate 80 0 ++ [1, 0, 0, 0]
            ++ List.replicate 48 0))
        = ⟨[], Except.ok ⟨List.replicate 80 0,
            [⟨⟨0, 0, 0⟩, ⟨0, 0, 0⟩, ⟨0, 0, 0⟩, ⟨0, 0, 0⟩⟩], true⟩⟩ := by
  constructor
  · decide
  · decide

end STLUtil
